import Mathlib

/-!
Verification of the mcsrvstatus build-orchestration script (`build.py`).

The script is embedded shallowly:

* External effects are captured by an `Env` oracle: whether the project-root
  marker `setup.py` exists, whether the two runtime libraries (`requests`,
  `aiohttp`) can be imported, and whether each external shell command
  succeeds (`cmdOk`).  Each external command is attempted at most once per
  run, so a fixed oracle is faithful.
* The working directory is modelled as a tree of directories `Fs`
  (the clean phase only ever inspects and removes directories; the
  `setup.py` marker check is carried by the `Env` flag).
* Every function returns, besides its boolean outcome where the source has
  one, a trace of `Event`s: messages printed, directories removed
  (one `removeDir` event models the `print` + `shutil.rmtree` pair),
  and external commands run (`runCmd cmd ok` models the
  `subprocess.run` call together with its stdout/stderr diagnostics,
  whose text is external data and out of scope).
* The dispatcher `main` additionally records which phase functions it
  invoked, in order, in a `Phase` list, and the process exit code
  (`sys.exit(1)` on the missing marker, 0 on every normal return).
-/

namespace Mcsrvstatus

/-- The five phase functions of the script, as invoked by the dispatcher. -/
inductive Phase where
  | clean
  | depcheck
  | build
  | install
  | test
deriving DecidableEq, Repr

/-- Observable actions of a run: printed lines, directory removals
(`print` + `shutil.rmtree` in `clean_build`), and external commands with
their boolean outcome (`run_command`). -/
inductive Event where
  | print (s : String)
  | removeDir (path : List String)
  | runCmd (cmd : String) (ok : Bool)
deriving DecidableEq, Repr

/-- The external world as the script observes it: presence of the
`setup.py` marker in the working directory, importability of the two
required libraries, and the success of each external shell command. -/
structure Env where
  setupPyExists : Bool
  requestsInstalled : Bool
  aiohttpInstalled : Bool
  cmdOk : String → Bool

/-- The working directory as a finitely-branching tree of named
directories (the only filesystem objects `clean_build` touches). -/
inductive Fs where
  | node (children : List (String × Fs))

/-- The child list of a directory. -/
def Fs.children : Fs → List (String × Fs)
  | .node cs => cs

/-- `os.path.exists(name)` for a top-level directory entry. -/
def Fs.existsTop (fs : Fs) (name : String) : Bool :=
  fs.children.any (fun c => c.1 = name)

/-- `shutil.rmtree(name)` on a top-level directory: the entry and its whole
subtree disappear. -/
def Fs.rmtreeTop (fs : Fs) (name : String) : Fs :=
  .node (fs.children.filter (fun c => ¬ c.1 = name))

/-- `run_command(command, description)` from `build.py`: prints the
`Running:` banner (the source falls back to the command text when the
description is empty, via `description or command`), runs the shell
command, and reports its boolean outcome. -/
def run_command (env : Env) (command description : String) : Bool × List Event :=
  let ok := env.cmdOk command
  (ok, [Event.print ("Running: " ++ (if description = "" then command else description)),
        Event.runCmd command ok])

/-- The fixed top-level build-artifact directories `clean_build` removes. -/
def dirs_to_clean : List String := ["build", "dist", "mcsrvstatus.egg-info"]

/-- One iteration of the first loop of `clean_build`:
`if os.path.exists(dir_name): shutil.rmtree(dir_name)` (with its print). -/
def cleanTopStep (s : Fs × List Event) (name : String) : Fs × List Event :=
  if s.1.existsTop name then
    (s.1.rmtreeTop name, s.2 ++ [Event.removeDir [name]])
  else s

/-- Removal events for the `__pycache__` children of one directory, in
child order, as printed by the `os.walk` loop of `clean_build`. -/
def pycEvents (acc : List String) (cs : List (String × Fs)) : List Event :=
  (cs.filter (fun c => c.1 = "__pycache__")).map
    (fun c => Event.removeDir (acc ++ [c.1]))

mutual
/-- The `os.walk('.')` loop of `clean_build`: top-down traversal that, in
each directory, removes every child named `__pycache__` (whole subtree,
without descending into it) and recurses into the remaining children.
`acc` is the path of the current directory relative to the root. -/
def walkClean (acc : List String) : Fs → Fs × List Event
  | .node cs =>
    let r := walkChildren acc cs
    (.node r.1, pycEvents acc cs ++ r.2)

/-- Processes the child list of one directory for `walkClean`: drops
`__pycache__` children (their removal events were already emitted at this
level) and recurses into the others in order. -/
def walkChildren (acc : List String) : List (String × Fs) → List (String × Fs) × List Event
  | [] => ([], [])
  | c :: rest =>
    if c.1 = "__pycache__" then
      walkChildren acc rest
    else
      let r1 := walkClean (acc ++ [c.1]) c.2
      let r2 := walkChildren acc rest
      ((c.1, r1.1) :: r2.1, r1.2 ++ r2.2)
end

/-- `clean_build()` from `build.py`: removes the three fixed build-artifact
directories when present, then removes every `__pycache__` directory found
by walking the tree. -/
def clean_build (fs : Fs) : Fs × List Event :=
  let s := dirs_to_clean.foldl cleanTopStep (fs, [])
  let w := walkClean [] s.1
  (w.1, s.2 ++ w.2)

/-- `build_package()` from `build.py`: source distribution first, then the
wheel; returns `False` as soon as one invocation fails. -/
def build_package (env : Env) : Bool × List Event :=
  let e0 := [Event.print "Building package..."]
  let r1 := run_command env "python setup.py sdist" "Creating source distribution"
  if r1.1 = false then (false, e0 ++ r1.2)
  else
    let r2 := run_command env "python setup.py bdist_wheel" "Creating wheel package"
    if r2.1 = false then (false, e0 ++ r1.2 ++ r2.2)
    else (true, e0 ++ r1.2 ++ r2.2)

/-- `install_package()` from `build.py`. -/
def install_package (env : Env) : Bool × List Event :=
  let r := run_command env "pip install -e ." "Installing in development mode"
  (r.1, Event.print "Installing package in development mode..." :: r.2)

/-- `run_tests()` from `build.py`. -/
def run_tests (env : Env) : Bool × List Event :=
  let r := run_command env "python -m pytest tests/ -v" "Running tests"
  (r.1, Event.print "Running tests..." :: r.2)

/-- `check_requirements()` from `build.py`: for each of `requests` and
`aiohttp` in that order, try to import it, and if the import fails run
`pip install` for it, returning `False` immediately when that installer
invocation fails; returns `True` otherwise. -/
def check_requirements (env : Env) : Bool × List Event :=
  let e0 := [Event.print "Checking dependencies..."]
  let s1 : Bool × List Event :=
    if env.requestsInstalled then (true, [Event.print "✓ requests installed"])
    else
      let r := run_command env "pip install requests" "Installing requests"
      (r.1, [Event.print "✗ requests not installed",
             Event.print "Installing requests..."] ++ r.2)
  if s1.1 = false then (false, e0 ++ s1.2)
  else
    let s2 : Bool × List Event :=
      if env.aiohttpInstalled then (true, [Event.print "✓ aiohttp installed"])
      else
        let r := run_command env "pip install aiohttp" "Installing aiohttp"
        (r.1, [Event.print "✗ aiohttp not installed",
               Event.print "Installing aiohttp..."] ++ r.2)
    if s2.1 = false then (false, e0 ++ s1.2 ++ s2.2)
    else (true, e0 ++ s1.2 ++ s2.2)

/-- Outcome of one whole run of the script: the process exit status, the
resulting working directory, the event trace, and the phase functions the
dispatcher invoked, in order. -/
structure RunResult where
  exitCode : Nat
  fs : Fs
  events : List Event
  phases : List Phase

/-- The two banner lines `main` prints before anything else; the second
is the source's `"=" * 50` separator. -/
def banner : List Event :=
  [Event.print "Building mcsrvstatus library",
   Event.print (String.mk (List.replicate 50 '='))]

/-- `main()` from `build.py`: prints the banner, exits with status 1 when
the `setup.py` marker is absent, otherwise dispatches on `sys.argv[1]`
(commands `clean`, `build`, `install`, `test`, `all`, an unknown-command
message otherwise) or, with no argument, runs the default
clean → dependency-check → build sequence with its guidance prints.
`args` is `sys.argv` without the leading script name. -/
def main (env : Env) (fs : Fs) (args : List String) : RunResult :=
  if env.setupPyExists then
    match args with
    | command :: _ =>
      if command = "clean" then
        let c := clean_build fs
        { exitCode := 0, fs := c.1, events := banner ++ c.2,
          phases := [Phase.clean] }
      else if command = "build" then
        let c := clean_build fs
        let d := check_requirements env
        if d.1 then
          let b := build_package env
          { exitCode := 0, fs := c.1, events := banner ++ c.2 ++ d.2 ++ b.2,
            phases := [Phase.clean, Phase.depcheck, Phase.build] }
        else
          { exitCode := 0, fs := c.1, events := banner ++ c.2 ++ d.2,
            phases := [Phase.clean, Phase.depcheck] }
      else if command = "install" then
        let d := check_requirements env
        if d.1 then
          let i := install_package env
          { exitCode := 0, fs := fs, events := banner ++ d.2 ++ i.2,
            phases := [Phase.depcheck, Phase.install] }
        else
          { exitCode := 0, fs := fs, events := banner ++ d.2,
            phases := [Phase.depcheck] }
      else if command = "test" then
        let d := check_requirements env
        if d.1 then
          let t := run_tests env
          { exitCode := 0, fs := fs, events := banner ++ d.2 ++ t.2,
            phases := [Phase.depcheck, Phase.test] }
        else
          { exitCode := 0, fs := fs, events := banner ++ d.2,
            phases := [Phase.depcheck] }
      else if command = "all" then
        let c := clean_build fs
        let d := check_requirements env
        if d.1 then
          let b := build_package env
          if b.1 then
            let i := install_package env
            if i.1 then
              let t := run_tests env
              { exitCode := 0, fs := c.1,
                events := banner ++ c.2 ++ d.2 ++ b.2 ++ i.2 ++ t.2,
                phases := [Phase.clean, Phase.depcheck, Phase.build,
                           Phase.install, Phase.test] }
            else
              { exitCode := 0, fs := c.1,
                events := banner ++ c.2 ++ d.2 ++ b.2 ++ i.2,
                phases := [Phase.clean, Phase.depcheck, Phase.build,
                           Phase.install] }
          else
            { exitCode := 0, fs := c.1, events := banner ++ c.2 ++ d.2 ++ b.2,
              phases := [Phase.clean, Phase.depcheck, Phase.build] }
        else
          { exitCode := 0, fs := c.1, events := banner ++ c.2 ++ d.2,
            phases := [Phase.clean, Phase.depcheck] }
      else
        { exitCode := 0, fs := fs,
          events := banner ++ [Event.print ("Unknown command: " ++ command),
            Event.print "Available commands: clean, build, install, test, all"],
          phases := [] }
    | [] =>
      let c := clean_build fs
      let d := check_requirements env
      if d.1 then
        let b := build_package env
        if b.1 then
          { exitCode := 0, fs := c.1,
            events := banner ++ c.2 ++ d.2 ++ b.2 ++
              [Event.print "\\nBuild completed successfully!",
               Event.print "\\nTo install run:",
               Event.print "python build.py install",
               Event.print "\\nTo run tests:",
               Event.print "python build.py test"],
            phases := [Phase.clean, Phase.depcheck, Phase.build] }
        else
          { exitCode := 0, fs := c.1, events := banner ++ c.2 ++ d.2 ++ b.2,
            phases := [Phase.clean, Phase.depcheck, Phase.build] }
      else
        { exitCode := 0, fs := c.1, events := banner ++ c.2 ++ d.2,
          phases := [Phase.clean, Phase.depcheck] }
  else
    { exitCode := 1, fs := fs,
      events := banner ++ [Event.print "Error: setup.py file not found!",
        Event.print "Make sure you are in the project root directory."],
      phases := [] }

/-- The external commands recorded in a trace, in invocation order. -/
def cmdsRun (evs : List Event) : List String :=
  evs.filterMap fun e =>
    match e with
    | .runCmd c _ => some c
    | _ => none

mutual
/-- All (nonempty, root-relative) directory paths present in a tree. -/
def Fs.paths : Fs → List (List String)
  | .node cs => pathsChildren cs

/-- Directory paths contributed by a child list: each child's own name and
its subtree's paths prefixed with that name. -/
def pathsChildren : List (String × Fs) → List (List String)
  | [] => []
  | c :: rest =>
    ([c.1] :: (Fs.paths c.2).map (fun p => c.1 :: p)) ++ pathsChildren rest
end

/-- Environment where the marker is present, both libraries import, and
every external command succeeds. -/
def envT : Env := ⟨true, true, true, fun _ => true⟩

/-- Environment where the marker is present, neither library imports, and
every external command fails. -/
def envF : Env := ⟨true, false, false, fun _ => false⟩

/-- Environment where the `setup.py` marker is absent. -/
def envNoMarker : Env := ⟨false, true, true, fun _ => true⟩

/-- An empty working directory. -/
def fs0 : Fs := Fs.node []

/-- A working directory with the three build-artifact directories and
nested `__pycache__` directories. -/
def fs1 : Fs :=
  Fs.node [("build", .node [("__pycache__", .node [])]),
           ("dist", .node []),
           ("mcsrvstatus.egg-info", .node []),
           ("src", .node [("__pycache__", .node []), ("mcsrvstatus", .node [])])]

/-! ## General lemmas about the dispatcher -/

/-- Whenever the `setup.py` marker is present, every run of `main` exits
with status 0, whatever the command and whatever the phases did. -/
theorem main_exit0 (env : Env) (fs : Fs) (args : List String)
    (h : env.setupPyExists = true) : (main env fs args).exitCode = 0 := by
  cases args with
  | nil =>
    simp only [main, h, if_true]
    repeat first | rfl | split
  | cons a r =>
    simp only [main, h, if_true]
    repeat first | rfl | split

/-- C2: the process exit status is non-zero iff the `setup.py` marker is
absent; when it is absent an error is printed and no phase executes; in
every other case the process exits with status 0. -/
theorem claim2_exit_status (env : Env) (fs : Fs) (args : List String) :
    ((main env fs args).exitCode ≠ 0 ↔ env.setupPyExists = false)
    ∧ (env.setupPyExists = false →
        (main env fs args).phases = []
        ∧ Event.print "Error: setup.py file not found!" ∈ (main env fs args).events) := by
  cases h : env.setupPyExists with
  | false =>
    refine ⟨?_, fun _ => ?_⟩
    · simp [main, h]
    · simp [main, h, banner]
  | true =>
    refine ⟨?_, fun hf => by simp [h] at hf⟩
    simp [main_exit0 env fs args h, h]

/-- Witness for C2 at a concrete environment with the marker absent. -/
theorem claim2_exit_status_witness :
    ((main envNoMarker fs0 []).exitCode ≠ 0 ↔ envNoMarker.setupPyExists = false)
    ∧ (main envNoMarker fs0 []).phases = []
    ∧ Event.print "Error: setup.py file not found!" ∈ (main envNoMarker fs0 []).events := by
  have h := claim2_exit_status envNoMarker fs0 []
  exact ⟨h.1, (h.2 rfl).1, (h.2 rfl).2⟩

/-- C8: any unrecognized command prints the unknown-command message with
the fixed list of valid commands, executes no phase, leaves the working
directory untouched and returns normally with exit status 0. -/
theorem claim8_unknown_command (env : Env) (fs : Fs) (cmd : String) (rest : List String)
    (h : env.setupPyExists = true)
    (hcmd : cmd ∉ (["clean", "build", "install", "test", "all"] : List String)) :
    main env fs (cmd :: rest) =
      { exitCode := 0, fs := fs,
        events := banner ++ [Event.print ("Unknown command: " ++ cmd),
          Event.print "Available commands: clean, build, install, test, all"],
        phases := [] } := by
  simp only [List.mem_cons, not_or] at hcmd
  obtain ⟨h1, h2, h3, h4, h5, -⟩ := hcmd
  simp [main, h, h1, h2, h3, h4, h5]

/-- Witness for C8 at the concrete unrecognized command `foo`. -/
theorem claim8_unknown_command_witness :
    ("foo" ∉ (["clean", "build", "install", "test", "all"] : List String))
    ∧ main envT fs0 ["foo"] =
      { exitCode := 0, fs := fs0,
        events := banner ++ [Event.print ("Unknown command: " ++ "foo"),
          Event.print "Available commands: clean, build, install, test, all"],
        phases := [] } :=
  ⟨by decide, claim8_unknown_command envT fs0 "foo" [] rfl (by decide)⟩

/-- C10: the dispatcher inspects only the first command-line argument; two
invocations with the same first argument (or with no argument in both)
produce the same exit status, the same trace, the same phases and the same
resulting working directory. -/
theorem claim10_first_argument_only (env : Env) (fs : Fs) (args args' : List String)
    (h : args.head? = args'.head?) :
    main env fs args = main env fs args' := by
  cases args with
  | nil =>
    cases args' with
    | nil => rfl
    | cons b s => simp at h
  | cons a r =>
    cases args' with
    | nil => simp at h
    | cons b s =>
      simp only [List.head?_cons, Option.some.injEq] at h
      subst h
      rfl

/-- Witness for C10: extra arguments after `all` are ignored. -/
theorem claim10_first_argument_only_witness :
    ((["all", "x"] : List String).head? = (["all", "y", "z"] : List String).head?)
    ∧ main envT fs0 ["all", "x"] = main envT fs0 ["all", "y", "z"] :=
  ⟨rfl, claim10_first_argument_only envT fs0 _ _ rfl⟩

/-- C1: for every recognized command the dispatcher runs exactly the
phases of the command-to-phase mapping, in order, short-circuiting on
failure; in particular when dependency-check fails, the build, install and
test phases do not execute for any of `build`, `install`, `test`, `all`. -/
theorem claim1_command_phase_mapping (env : Env) (fs : Fs)
    (h : env.setupPyExists = true) :
    (main env fs ["clean"]).phases = [Phase.clean]
    ∧ (main env fs ["build"]).phases =
        [Phase.clean, Phase.depcheck] ++
          (if (check_requirements env).1 then [Phase.build] else [])
    ∧ (main env fs ["install"]).phases =
        [Phase.depcheck] ++
          (if (check_requirements env).1 then [Phase.install] else [])
    ∧ (main env fs ["test"]).phases =
        [Phase.depcheck] ++
          (if (check_requirements env).1 then [Phase.test] else [])
    ∧ (main env fs ["all"]).phases =
        [Phase.clean, Phase.depcheck] ++
          (if (check_requirements env).1 then
            [Phase.build] ++
              (if (build_package env).1 then
                [Phase.install] ++
                  (if (install_package env).1 then [Phase.test] else [])
              else [])
          else [])
    ∧ ((check_requirements env).1 = false →
        ∀ cmd ∈ (["build", "install", "test", "all"] : List String),
          Phase.build ∉ (main env fs [cmd]).phases
          ∧ Phase.install ∉ (main env fs [cmd]).phases
          ∧ Phase.test ∉ (main env fs [cmd]).phases) := by
  refine ⟨?_, ?_, ?_, ?_, ?_, ?_⟩
  · simp [main, h]
  · cases hd : (check_requirements env).1 <;> simp [main, h, hd]
  · cases hd : (check_requirements env).1 <;> simp [main, h, hd]
  · cases hd : (check_requirements env).1 <;> simp [main, h, hd]
  · cases hd : (check_requirements env).1 <;>
      cases hb : (build_package env).1 <;>
      cases hi : (install_package env).1 <;>
      simp [main, h, hd, hb, hi]
  · intro hd cmd hcmd
    simp only [List.mem_cons, List.not_mem_nil, or_false] at hcmd
    rcases hcmd with rfl | rfl | rfl | rfl <;> simp [main, h, hd]

/-- Witness for C1 at a concrete all-succeeding environment: `all` runs
all five phases in order. -/
theorem claim1_command_phase_mapping_witness :
    (main envT fs0 ["all"]).phases =
      [Phase.clean, Phase.depcheck, Phase.build, Phase.install, Phase.test] :=
  ((claim1_command_phase_mapping envT fs0 rfl).2.2.2.2.1).trans rfl

/-- C7: with no command-line argument the dispatcher runs
clean → dependency-check → build, never calls the install or test phases,
and on full success prints the install/test guidance lines. -/
theorem claim7_default_sequence (env : Env) (fs : Fs)
    (h : env.setupPyExists = true) :
    (main env fs []).phases =
      [Phase.clean, Phase.depcheck] ++
        (if (check_requirements env).1 then [Phase.build] else [])
    ∧ Phase.install ∉ (main env fs []).phases
    ∧ Phase.test ∉ (main env fs []).phases
    ∧ ((check_requirements env).1 = true → (build_package env).1 = true →
        Event.print "python build.py install" ∈ (main env fs []).events
        ∧ Event.print "python build.py test" ∈ (main env fs []).events) := by
  refine ⟨?_, ?_, ?_, fun hd hb => ?_⟩
  · cases hd : (check_requirements env).1 <;>
      cases hb : (build_package env).1 <;> simp [main, h, hd, hb]
  · cases hd : (check_requirements env).1 <;>
      cases hb : (build_package env).1 <;> simp [main, h, hd, hb]
  · cases hd : (check_requirements env).1 <;>
      cases hb : (build_package env).1 <;> simp [main, h, hd, hb]
  · simp [main, h, hd, hb]

/-- Witness for C7 at a concrete all-succeeding environment. -/
theorem claim7_default_sequence_witness :
    (main envT fs0 []).phases = [Phase.clean, Phase.depcheck, Phase.build]
    ∧ Phase.install ∉ (main envT fs0 []).phases
    ∧ Phase.test ∉ (main envT fs0 []).phases
    ∧ Event.print "python build.py install" ∈ (main envT fs0 []).events
    ∧ Event.print "python build.py test" ∈ (main envT fs0 []).events := by
  have h := claim7_default_sequence envT fs0 rfl
  refine ⟨?_, h.2.1, h.2.2.1, (h.2.2.2 rfl rfl).1, (h.2.2.2 rfl rfl).2⟩
  have h1 := h.1
  simpa using h1

/-- C3: dependency-check installs a library only when it is absent,
succeeds iff each absent library's installer invocation succeeds (in
particular it succeeds, running no installer at all, when both libraries
are already present), and fails as soon as an installer invocation fails. -/
theorem claim3_check_requirements (env : Env) :
    ((check_requirements env).1 =
      ((env.requestsInstalled || env.cmdOk "pip install requests") &&
        (env.aiohttpInstalled || env.cmdOk "pip install aiohttp")))
    ∧ (env.requestsInstalled = true →
        ∀ b, Event.runCmd "pip install requests" b ∉ (check_requirements env).2)
    ∧ (env.aiohttpInstalled = true →
        ∀ b, Event.runCmd "pip install aiohttp" b ∉ (check_requirements env).2)
    ∧ (env.requestsInstalled = false →
        Event.runCmd "pip install requests" (env.cmdOk "pip install requests")
          ∈ (check_requirements env).2)
    ∧ (env.aiohttpInstalled = false →
        (env.requestsInstalled || env.cmdOk "pip install requests") = true →
        Event.runCmd "pip install aiohttp" (env.cmdOk "pip install aiohttp")
          ∈ (check_requirements env).2)
    ∧ (env.requestsInstalled = true → env.aiohttpInstalled = true →
        (check_requirements env).1 = true
        ∧ cmdsRun (check_requirements env).2 = []) := by
  cases hr : env.requestsInstalled <;>
    cases ha : env.aiohttpInstalled <;>
    cases hcr : env.cmdOk "pip install requests" <;>
    cases hca : env.cmdOk "pip install aiohttp" <;>
    simp [check_requirements, run_command, cmdsRun, hr, ha, hcr, hca]

/-- Witness for C3 at the environment where both libraries are present:
success, and no installer command appears in the trace. -/
theorem claim3_check_requirements_witness :
    (check_requirements envT).1 = true
    ∧ cmdsRun (check_requirements envT).2 = []
    ∧ Event.runCmd "pip install requests" true ∉ (check_requirements envT).2
    ∧ Event.runCmd "pip install requests" false ∉ (check_requirements envT).2 := by
  have h := claim3_check_requirements envT
  exact ⟨(h.2.2.2.2.2 rfl rfl).1, (h.2.2.2.2.2 rfl rfl).2,
    h.2.1 rfl true, h.2.1 rfl false⟩

/-- C4: the build phase runs the source-distribution build first and the
wheel build second, skips the wheel build when the first invocation fails,
and succeeds exactly when both invocations succeed. -/
theorem claim4_build_package (env : Env) :
    ((build_package env).1 =
      (env.cmdOk "python setup.py sdist" && env.cmdOk "python setup.py bdist_wheel"))
    ∧ cmdsRun (build_package env).2 =
        (if env.cmdOk "python setup.py sdist" then
          ["python setup.py sdist", "python setup.py bdist_wheel"]
        else ["python setup.py sdist"]) := by
  cases h1 : env.cmdOk "python setup.py sdist" <;>
    cases h2 : env.cmdOk "python setup.py bdist_wheel" <;>
    simp [build_package, run_command, cmdsRun, h1, h2]

/-- C9: when `requests` is absent and its installer invocation fails,
dependency-check returns failure immediately: its whole trace is the
requests-side prints plus the failed installer call, and nothing related
to `aiohttp` appears. -/
theorem claim9_depcheck_short_circuit (env : Env)
    (h1 : env.requestsInstalled = false)
    (h2 : env.cmdOk "pip install requests" = false) :
    (check_requirements env).1 = false
    ∧ (check_requirements env).2 =
        [Event.print "Checking dependencies...",
         Event.print "✗ requests not installed",
         Event.print "Installing requests...",
         Event.print "Running: Installing requests",
         Event.runCmd "pip install requests" false]
    ∧ (∀ b, Event.runCmd "pip install aiohttp" b ∉ (check_requirements env).2)
    ∧ Event.print "✓ aiohttp installed" ∉ (check_requirements env).2
    ∧ Event.print "✗ aiohttp not installed" ∉ (check_requirements env).2 := by
  simp [check_requirements, run_command, h1, h2]

/-- Witness for C9 at a concrete environment where `requests` is absent
and every external command fails. -/
theorem claim9_depcheck_short_circuit_witness :
    envF.requestsInstalled = false
    ∧ envF.cmdOk "pip install requests" = false
    ∧ (check_requirements envF).1 = false
    ∧ Event.runCmd "pip install aiohttp" true ∉ (check_requirements envF).2
    ∧ Event.runCmd "pip install aiohttp" false ∉ (check_requirements envF).2 := by
  have h := claim9_depcheck_short_circuit envF rfl rfl
  exact ⟨rfl, rfl, h.1, h.2.2.1 true, h.2.2.1 false⟩

/-! ## Lemmas about the clean phase -/

set_option linter.unusedVariables false in
/-- Strong induction over directory trees: to prove a property of every
tree it suffices to prove it for a node assuming it for every child. -/
theorem Fs.strongInd {motive : Fs → Prop}
    (h : ∀ cs, (∀ c ∈ cs, motive c.2) → motive (Fs.node cs)) :
    ∀ fs, motive fs
  | .node cs => h cs (fun c hc => Fs.strongInd h c.2)
termination_by fs => sizeOf fs
decreasing_by
  have h1 := List.sizeOf_lt_of_mem hc
  obtain ⟨n, t⟩ := c
  simp at h1 ⊢
  omega

/-- `Fs.paths` of a node is the paths of its child list. -/
theorem paths_node (cs : List (String × Fs)) :
    Fs.paths (Fs.node cs) = pathsChildren cs := rfl

/-- `Fs.paths` in terms of the child list. -/
theorem paths_children_eq (fs : Fs) : Fs.paths fs = pathsChildren fs.children := by
  cases fs
  rfl

/-- Membership in the paths of a cons child list, unfolded. -/
theorem mem_pathsChildren_cons (c : String × Fs) (rest : List (String × Fs))
    (p : List String) :
    p ∈ pathsChildren (c :: rest) ↔
      p = [c.1] ∨ (∃ q ∈ Fs.paths c.2, p = c.1 :: q) ∨ p ∈ pathsChildren rest := by
  show p ∈ ([c.1] :: (Fs.paths c.2).map (fun q => c.1 :: q)) ++ pathsChildren rest ↔ _
  simp only [List.cons_append, List.mem_cons, List.mem_append, List.mem_map]
  constructor
  · rintro (rfl | hp | hp)
    · exact Or.inl rfl
    · obtain ⟨q, hq, rfl⟩ := hp
      exact Or.inr (Or.inl ⟨q, hq, rfl⟩)
    · exact Or.inr (Or.inr hp)
  · rintro (rfl | ⟨q, hq, rfl⟩ | hp)
    · exact Or.inl rfl
    · exact Or.inr (Or.inl ⟨q, hq, rfl⟩)
    · exact Or.inr (Or.inr hp)

/-- Filtering a name out of a child list removes exactly the paths whose
first component is that name. -/
theorem pathsChildren_filter (cs : List (String × Fs)) (name : String) (p : List String) :
    p ∈ pathsChildren (cs.filter (fun c => ¬ c.1 = name)) ↔
      p ∈ pathsChildren cs ∧ p.head? ≠ some name := by
  induction cs with
  | nil => simp [pathsChildren]
  | cons c rest ih =>
    by_cases hc : c.1 = name
    · have hf : List.filter (fun c => ¬ c.1 = name) (c :: rest) =
          List.filter (fun c => ¬ c.1 = name) rest := by
        simp [List.filter_cons, hc]
      rw [hf, ih, mem_pathsChildren_cons]
      constructor
      · rintro ⟨hp, hh⟩
        exact ⟨Or.inr (Or.inr hp), hh⟩
      · rintro ⟨rfl | hp | hp, hh⟩
        · simp [hc] at hh
        · obtain ⟨q, -, rfl⟩ := hp; simp [hc] at hh
        · exact ⟨hp, hh⟩
    · have hf : List.filter (fun c => ¬ c.1 = name) (c :: rest) =
          c :: List.filter (fun c => ¬ c.1 = name) rest := by
        simp [List.filter_cons, hc]
      rw [hf, mem_pathsChildren_cons, mem_pathsChildren_cons]
      constructor
      · rintro (rfl | ⟨q, hq, rfl⟩ | hp)
        · exact ⟨Or.inl rfl, by simp [hc]⟩
        · exact ⟨Or.inr (Or.inl ⟨q, hq, rfl⟩), by simp [hc]⟩
        · obtain ⟨hp, hh⟩ := ih.mp hp
          exact ⟨Or.inr (Or.inr hp), hh⟩
      · rintro ⟨rfl | hp | hp, hh⟩
        · exact Or.inl rfl
        · exact Or.inr (Or.inl hp)
        · exact Or.inr (Or.inr (ih.mpr ⟨hp, hh⟩))

/-- A top-level name exists in the tree iff it occurs as a length-one
path. -/
theorem existsTop_iff_mem_paths (fs : Fs) (n : String) :
    fs.existsTop n = true ↔ ∃ p ∈ Fs.paths fs, p.head? = some n := by
  cases fs with
  | node cs =>
    show (Fs.node cs).existsTop n = true ↔ ∃ p ∈ pathsChildren cs, p.head? = some n
    induction cs with
    | nil => simp [Fs.existsTop, Fs.children, pathsChildren]
    | cons c rest ih =>
      simp only [Fs.existsTop, Fs.children, List.any_cons, Bool.or_eq_true,
        decide_eq_true_eq] at ih ⊢
      constructor
      · rintro (hc | hrest)
        · refine ⟨[c.1], (mem_pathsChildren_cons c rest [c.1]).mpr (Or.inl rfl), ?_⟩
          simp [hc]
        · obtain ⟨p, hp, hh⟩ := ih.mp hrest
          exact ⟨p, (mem_pathsChildren_cons c rest p).mpr (Or.inr (Or.inr hp)), hh⟩
      · rintro ⟨p, hp, hh⟩
        rcases (mem_pathsChildren_cons c rest p).mp hp with rfl | ⟨q, -, rfl⟩ | hp'
        · simp at hh; exact Or.inl hh
        · simp at hh; exact Or.inl hh
        · exact Or.inr (ih.mpr ⟨p, hp', hh⟩)

/-- One top-level cleaning step removes exactly the paths that start with
the given name. -/
theorem cleanTopStep_paths (s : Fs × List Event) (name : String) (p : List String) :
    p ∈ Fs.paths (cleanTopStep s name).1 ↔
      p ∈ Fs.paths s.1 ∧ p.head? ≠ some name := by
  unfold cleanTopStep
  by_cases h : s.1.existsTop name = true
  · simp only [h, if_true]
    show p ∈ Fs.paths (s.1.rmtreeTop name) ↔ _
    rw [Fs.rmtreeTop, paths_node, paths_children_eq]
    exact pathsChildren_filter s.1.children name p
  · simp only [h, Bool.false_eq_true, if_false]
    constructor
    · intro hp
      refine ⟨hp, fun hh => h ?_⟩
      exact (existsTop_iff_mem_paths s.1 name).mpr ⟨p, hp, hh⟩
    · exact fun hp => hp.1

/-- Every child contributes its own name as a length-one path. -/
theorem mem_pathsChildren_of_mem (cs : List (String × Fs)) (c : String × Fs)
    (h : c ∈ cs) : [c.1] ∈ pathsChildren cs := by
  induction cs with
  | nil => cases h
  | cons d rest ih =>
    rcases List.mem_cons.mp h with rfl | h'
    · exact (mem_pathsChildren_cons c rest [c.1]).mpr (Or.inl rfl)
    · exact (mem_pathsChildren_cons d rest [c.1]).mpr (Or.inr (Or.inr (ih h')))

/-- Child-list version of `walkClean_paths`, with the inductive hypothesis
for the subtrees supplied explicitly. -/
theorem walkChildren_paths_aux (acc : List String) :
    ∀ (cs : List (String × Fs)),
      (∀ c ∈ cs, ∀ (acc' p : List String),
        p ∈ Fs.paths (walkClean acc' c.2).1 ↔
          p ∈ Fs.paths c.2 ∧ "__pycache__" ∉ p) →
      ∀ p, p ∈ pathsChildren (walkChildren acc cs).1 ↔
        p ∈ pathsChildren cs ∧ "__pycache__" ∉ p := by
  intro cs
  induction cs with
  | nil =>
    intro _ p
    simp [walkChildren, pathsChildren]
  | cons c rest ih =>
    intro IH p
    have IHc := IH c (List.mem_cons_self c rest)
    have IHrest := fun c hc => IH c (List.mem_cons_of_mem _ hc)
    by_cases hc : c.1 = "__pycache__"
    · have hw : walkChildren acc (c :: rest) = walkChildren acc rest := by
        simp [walkChildren, hc]
      rw [hw, ih IHrest p, mem_pathsChildren_cons]
      constructor
      · rintro ⟨hp, hnp⟩
        exact ⟨Or.inr (Or.inr hp), hnp⟩
      · rintro ⟨rfl | hp | hp, hnp⟩
        · exact absurd (by simp [hc]) hnp
        · obtain ⟨q, -, rfl⟩ := hp
          exact absurd (by simp [hc]) hnp
        · exact ⟨hp, hnp⟩
    · have hw : walkChildren acc (c :: rest) =
          ((c.1, (walkClean (acc ++ [c.1]) c.2).1) :: (walkChildren acc rest).1,
            (walkClean (acc ++ [c.1]) c.2).2 ++ (walkChildren acc rest).2) := by
        simp [walkChildren, hc]
      rw [hw]
      show p ∈ pathsChildren ((c.1, (walkClean (acc ++ [c.1]) c.2).1) ::
        (walkChildren acc rest).1) ↔ _
      rw [mem_pathsChildren_cons, mem_pathsChildren_cons]
      constructor
      · rintro (rfl | hp | hp)
        · refine ⟨Or.inl rfl, ?_⟩
          simp only [List.mem_singleton]
          exact fun h => hc h.symm
        · obtain ⟨q, hq, rfl⟩ := hp
          obtain ⟨hq', hnq⟩ := (IHc (acc ++ [c.1]) q).mp hq
          refine ⟨Or.inr (Or.inl ⟨q, hq', rfl⟩), ?_⟩
          simp only [List.mem_cons, not_or]
          exact ⟨fun h => hc h.symm, hnq⟩
        · obtain ⟨hp', hnp⟩ := (ih IHrest p).mp hp
          exact ⟨Or.inr (Or.inr hp'), hnp⟩
      · rintro ⟨rfl | hp | hp, hnp⟩
        · exact Or.inl rfl
        · obtain ⟨q, hq, rfl⟩ := hp
          have hnq : "__pycache__" ∉ q := fun h => hnp (List.mem_cons_of_mem _ h)
          exact Or.inr (Or.inl ⟨q, (IHc (acc ++ [c.1]) q).mpr ⟨hq, hnq⟩, rfl⟩)
        · exact Or.inr (Or.inr ((ih IHrest p).mpr ⟨hp, hnp⟩))

/-- The `os.walk` pass removes exactly the paths that pass through a
`__pycache__` directory. -/
theorem walkClean_paths (fs : Fs) : ∀ (acc p : List String),
    p ∈ Fs.paths (walkClean acc fs).1 ↔
      p ∈ Fs.paths fs ∧ "__pycache__" ∉ p := by
  induction fs using Fs.strongInd with
  | _ cs IH =>
    intro acc p
    show p ∈ Fs.paths (Fs.node (walkChildren acc cs).1) ↔ _
    rw [paths_node, paths_node]
    exact walkChildren_paths_aux acc cs IH p

/-- Child-list version of `walkClean_id`. -/
theorem walkChildren_id_aux (acc : List String) :
    ∀ (cs : List (String × Fs)),
      (∀ c ∈ cs, ∀ acc' : List String,
        (∀ p ∈ Fs.paths c.2, "__pycache__" ∉ p) → walkClean acc' c.2 = (c.2, [])) →
      (∀ p ∈ pathsChildren cs, "__pycache__" ∉ p) →
      walkChildren acc cs = (cs, []) := by
  intro cs
  induction cs with
  | nil => intro _ _; rfl
  | cons c rest ih =>
    intro IH hnp
    have hc : ¬ c.1 = "__pycache__" := by
      intro h
      exact hnp [c.1] ((mem_pathsChildren_cons c rest [c.1]).mpr (Or.inl rfl))
        (by simp [h])
    have hrec : walkClean (acc ++ [c.1]) c.2 = (c.2, []) := by
      refine IH c (List.mem_cons_self c rest) _ (fun p hp hmem => ?_)
      exact hnp (c.1 :: p)
        ((mem_pathsChildren_cons c rest (c.1 :: p)).mpr (Or.inr (Or.inl ⟨p, hp, rfl⟩)))
        (List.mem_cons_of_mem _ hmem)
    have hrest : walkChildren acc rest = (rest, []) := by
      refine ih (fun c hmem => IH c (List.mem_cons_of_mem _ hmem)) (fun p hp => ?_)
      exact hnp p ((mem_pathsChildren_cons c rest p).mpr (Or.inr (Or.inr hp)))
    show walkChildren acc (c :: rest) = _
    simp [walkChildren, hc, hrec, hrest]

/-- On a tree with no `__pycache__` directory anywhere, the `os.walk` pass
changes nothing and removes nothing. -/
theorem walkClean_id (fs : Fs) : ∀ acc : List String,
    (∀ p ∈ Fs.paths fs, "__pycache__" ∉ p) → walkClean acc fs = (fs, []) := by
  induction fs using Fs.strongInd with
  | _ cs IH =>
    intro acc hnp
    have h1 : walkChildren acc cs = (cs, []) := by
      refine walkChildren_id_aux acc cs IH (fun p hp => ?_)
      exact hnp p (by rw [paths_node]; exact hp)
    have h2 : pycEvents acc cs = [] := by
      unfold pycEvents
      have hfil : List.filter (fun c => c.1 = "__pycache__") cs = [] := by
        rw [List.filter_eq_nil_iff]
        intro c hcmem
        simp only [decide_eq_true_eq]
        intro h
        exact hnp [c.1]
          (by rw [paths_node]; exact mem_pathsChildren_of_mem cs c hcmem)
          (by simp [h])
      rw [hfil]
      rfl
    show walkClean acc (Fs.node cs) = _
    simp [walkClean, h1, h2]

/-- A top-level step on a name that does not exist is the identity
(removing an already-absent directory is a silent no-op). -/
theorem cleanTopStep_id (s : Fs × List Event) (name : String)
    (h : s.1.existsTop name = false) : cleanTopStep s name = s := by
  unfold cleanTopStep
  simp [h]

/-- Full characterization of the clean phase: a directory path survives
`clean_build` iff it was present before, does not start with one of the
three build-artifact names, and passes through no `__pycache__`
directory. -/
theorem clean_build_paths (fs : Fs) (p : List String) :
    p ∈ Fs.paths (clean_build fs).1 ↔
      p ∈ Fs.paths fs ∧ p.head? ≠ some "build" ∧ p.head? ≠ some "dist" ∧
        p.head? ≠ some "mcsrvstatus.egg-info" ∧ "__pycache__" ∉ p := by
  show p ∈ Fs.paths (walkClean []
    (cleanTopStep (cleanTopStep (cleanTopStep (fs, []) "build") "dist")
      "mcsrvstatus.egg-info").1).1 ↔ _
  rw [walkClean_paths, cleanTopStep_paths, cleanTopStep_paths, cleanTopStep_paths]
  tauto

/-- C5: clean removes the top-level `build/`, `dist/`,
`mcsrvstatus.egg-info/` directories (with everything beneath them) and
every nested `__pycache__` directory, and removes nothing else: every
directory path outside that removal set is present after clean iff it was
present before. -/
theorem claim5_clean_frame (fs : Fs) :
    (∀ p ∈ Fs.paths fs,
      (p.head? = some "build" ∨ p.head? = some "dist" ∨
        p.head? = some "mcsrvstatus.egg-info" ∨ "__pycache__" ∈ p) →
      p ∉ Fs.paths (clean_build fs).1)
    ∧ (∀ p : List String,
        ¬(p.head? = some "build" ∨ p.head? = some "dist" ∨
          p.head? = some "mcsrvstatus.egg-info" ∨ "__pycache__" ∈ p) →
        (p ∈ Fs.paths (clean_build fs).1 ↔ p ∈ Fs.paths fs)) := by
  constructor
  · intro p hp hbad hclean
    have h := (clean_build_paths fs p).mp hclean
    tauto
  · intro p hgood
    rw [clean_build_paths fs p]
    tauto

/-- Witness for C5 on a concrete workspace: `build/` and
`src/__pycache__/` are removed, `src/mcsrvstatus/` is untouched. -/
theorem claim5_clean_frame_witness :
    (["build"] ∈ Fs.paths fs1 ∧ ["build"] ∉ Fs.paths (clean_build fs1).1)
    ∧ (["src", "__pycache__"] ∈ Fs.paths fs1
        ∧ ["src", "__pycache__"] ∉ Fs.paths (clean_build fs1).1)
    ∧ (["src", "mcsrvstatus"] ∈ Fs.paths (clean_build fs1).1 ↔
        ["src", "mcsrvstatus"] ∈ Fs.paths fs1) := by
  have h := claim5_clean_frame fs1
  refine ⟨⟨by decide, h.1 ["build"] (by decide) (by decide)⟩,
    ⟨by decide, h.1 ["src", "__pycache__"] (by decide) (by decide)⟩,
    h.2 ["src", "mcsrvstatus"] (by decide)⟩

/-- Running the clean phase a second time changes nothing and produces no
events at all. -/
theorem clean_build_clean_build (fs : Fs) :
    clean_build (clean_build fs).1 = ((clean_build fs).1, []) := by
  have hchar : ∀ p ∈ Fs.paths (clean_build fs).1,
      p.head? ≠ some "build" ∧ p.head? ≠ some "dist" ∧
        p.head? ≠ some "mcsrvstatus.egg-info" ∧ "__pycache__" ∉ p :=
    fun p hp => ((clean_build_paths fs p).mp hp).2
  have hex : ∀ n : String,
      (∀ p ∈ Fs.paths (clean_build fs).1, p.head? ≠ some n) →
      (clean_build fs).1.existsTop n = false := by
    intro n hn
    by_contra h
    rw [Bool.not_eq_false] at h
    obtain ⟨p, hp, hh⟩ := (existsTop_iff_mem_paths _ n).mp h
    exact hn p hp hh
  have hb : (clean_build fs).1.existsTop "build" = false :=
    hex _ (fun p hp => (hchar p hp).1)
  have hd : (clean_build fs).1.existsTop "dist" = false :=
    hex _ (fun p hp => (hchar p hp).2.1)
  have he : (clean_build fs).1.existsTop "mcsrvstatus.egg-info" = false :=
    hex _ (fun p hp => (hchar p hp).2.2.1)
  have hnp : ∀ p ∈ Fs.paths (clean_build fs).1, "__pycache__" ∉ p :=
    fun p hp => (hchar p hp).2.2.2
  have h1 : dirs_to_clean.foldl cleanTopStep ((clean_build fs).1, []) =
      ((clean_build fs).1, []) := by
    show cleanTopStep (cleanTopStep (cleanTopStep ((clean_build fs).1, [])
      "build") "dist") "mcsrvstatus.egg-info" = _
    rw [cleanTopStep_id ((clean_build fs).1, []) "build" hb,
      cleanTopStep_id ((clean_build fs).1, []) "dist" hd,
      cleanTopStep_id ((clean_build fs).1, []) "mcsrvstatus.egg-info" he]
  have h2 : walkClean [] (clean_build fs).1 = ((clean_build fs).1, []) :=
    walkClean_id _ [] hnp
  show (let s := dirs_to_clean.foldl cleanTopStep ((clean_build fs).1, [])
    let w := walkClean [] s.1
    (w.1, s.2 ++ w.2)) = _
  rw [h1]
  show ((walkClean [] (clean_build fs).1).1, [] ++ (walkClean [] (clean_build fs).1).2) = _
  rw [h2]
  rfl

/-- C6: the clean phase is idempotent — running it twice leaves the state
of one run, the second run performs no deletions (its trace is empty), and
removing an already-absent directory is a silent no-op. -/
theorem claim6_clean_idempotent :
    (∀ fs : Fs, clean_build (clean_build fs).1 = ((clean_build fs).1, []))
    ∧ (∀ (s : Fs × List Event) (name : String),
        s.1.existsTop name = false → cleanTopStep s name = s) :=
  ⟨clean_build_clean_build, fun s name h => cleanTopStep_id s name h⟩

/-- Witness for C6 on a concrete workspace. -/
theorem claim6_clean_idempotent_witness :
    clean_build (clean_build fs1).1 = ((clean_build fs1).1, [])
    ∧ fs0.existsTop "build" = false
    ∧ cleanTopStep (fs0, []) "build" = (fs0, []) :=
  ⟨claim6_clean_idempotent.1 fs1, rfl,
    claim6_clean_idempotent.2 (fs0, []) "build" rfl⟩

end Mcsrvstatus
